import Mathlib

/-!
Shallow embedding of the `mcp_template` core: the TTL/LRU cache engine
(`mcp_server/base/cache.py`), the schema snapshot store
(`mcp_server/base/schema.py`), the data-source contract
(`mcp_server/base/datasource.py`), the query validators
(`mcp_server/datasources/mysql.py`, `mcp_server/datasources/rest_api.py`)
and the orchestrator paths (`mcp_server/base/server.py`).
-/

/-- A Python-like value: enough structure for the cached payloads the
claims mention (ints, strings and string-keyed dictionaries). -/
inductive Val where
  | int : Int → Val
  | str : String → Val
  | dict : List (String × Val) → Val

/-- Association-list lookup, the model of Python `d[k]` / `d.get(k)` on a
string-keyed dict (keys are unique in every state the operations build). -/
def alook (k : String) : List (String × α) → Option α
  | [] => none
  | (k', v) :: rest => if k' = k then some v else alook k rest

/-- Remove every binding of key `k`; models Python `del d[k]` / `d.pop(k)`
(on well-formed states the key occurs at most once). -/
def aerase (k : String) (l : List (String × α)) : List (String × α) :=
  l.filter (fun kv => !(kv.1 == k))

/-! ## Cache engine (`mcp_server/base/cache.py`, class `TTLCache`)

State of one `TTLCache` instance.  `cache` models the `OrderedDict`
(head = least recently used, tail = most recently used); `timestamps`
models the `_timestamps` dict.  Wall-clock instants (`time.time()`) are
modelled as integers passed explicitly to each operation; the lock is
irrelevant in this sequential model. -/
structure TTLCache where
  max_size : Nat
  default_ttl : Int
  cache : List (String × Val)
  timestamps : List (String × Int)

/-- Model of `TTLCache.__init__`: empty cache with the given configuration. -/
def TTLCache.mk0 (maxSize : Nat) (defaultTTL : Int) : TTLCache :=
  { max_size := maxSize, default_ttl := defaultTTL, cache := [], timestamps := [] }

/-- The effective TTL of a stored value, per `_is_expired`/`_evict_expired`:
`self.default_ttl`, unless the stored value is a dict containing a
`'ttl'` key, in which case that value is used.  (A non-integer `'ttl'`
entry would raise `TypeError` at the comparison in the source; no claim
reaches that case, and it is modelled as the default.) -/
def entryTTL (defaultTTL : Int) : Val → Int
  | Val.dict kvs =>
    match alook "ttl" kvs with
    | some (Val.int n) => n
    | _ => defaultTTL
  | _ => defaultTTL

/-- Model of `TTLCache._is_expired`: a key with no timestamp counts as expired;
otherwise expired iff `now - timestamp > ttl` (strictly). -/
def TTLCache.is_expired (c : TTLCache) (now : Int) (key : String) : Bool :=
  match alook key c.timestamps with
  | none => true
  | some ts =>
    let ttl :=
      match alook key c.cache with
      | some v => entryTTL c.default_ttl v
      | none => c.default_ttl
    decide (now - ts > ttl)

/-- The keys collected by `_evict_expired`'s first loop: every timestamped
key whose entry is expired at `now`. -/
def TTLCache.expiredKeys (c : TTLCache) (now : Int) : List String :=
  (c.timestamps.filter (fun kv =>
    let ttl :=
      match alook kv.1 c.cache with
      | some v => entryTTL c.default_ttl v
      | none => c.default_ttl
    decide (now - kv.2 > ttl))).map Prod.fst

/-- Model of `TTLCache._evict_expired`: pop every expired key from both maps. -/
def TTLCache.evict_expired (c : TTLCache) (now : Int) : TTLCache :=
  { c with
    cache := c.cache.filter (fun kv => !((c.expiredKeys now).contains kv.1)),
    timestamps := c.timestamps.filter (fun kv => !((c.expiredKeys now).contains kv.1)) }

/-- The `while len(self._cache) >= self.max_size: self._evict_lru()` loop of
`set`, folded over both maps.  `_evict_lru` pops the front (least recently
used) entry of the ordered dict and drops its timestamp.  (When
`max_size = 0` and the cache is already empty the source loop never
terminates; the model returns the empty state instead — the two agree for
every `max_size ≥ 1`.) -/
def dropLRU (maxSize : Nat) : List (String × Val) → List (String × Int) →
    List (String × Val) × List (String × Int)
  | [], ts => ([], ts)
  | (k, v) :: rest, ts =>
    if maxSize ≤ rest.length + 1 then dropLRU maxSize rest (aerase k ts)
    else ((k, v) :: rest, ts)

/-- Model of `TTLCache.set`: delete an existing binding of the key (the timestamp
entry is left in place, as in the source), sweep expired entries, evict
LRU entries down to capacity, then insert at the tail — wrapping the value
as `{"value": value, "ttl": ttl}` when an explicit TTL was supplied.
(`self._timestamps[key] = time` is modelled as erase-then-append; only
lookup and membership of `timestamps` are ever observed, so the Python
dict's in-place position update is indistinguishable.) -/
def TTLCache.set (c : TTLCache) (now : Int) (key : String) (value : Val)
    (ttl : Option Int) : TTLCache :=
  let c1 : TTLCache := { c with cache := aerase key c.cache }
  let c2 := c1.evict_expired now
  let cd := dropLRU c2.max_size c2.cache c2.timestamps
  let cacheValue :=
    match ttl with
    | some t => Val.dict [("value", value), ("ttl", Val.int t)]
    | none => value
  { c2 with
    cache := cd.1 ++ [(key, cacheValue)],
    timestamps := aerase key cd.2 ++ [(key, now)] }

/-- Model of `TTLCache.get`: absent or expired keys report a miss and leave the
state untouched; a hit moves the entry to the tail (most recently used)
and returns the stored cache value exactly as stored. -/
def TTLCache.get (c : TTLCache) (now : Int) (key : String) :
    Option Val × TTLCache :=
  match alook key c.cache with
  | none => (none, c)
  | some v =>
    if c.is_expired now key then (none, c)
    else (some v, { c with cache := aerase key c.cache ++ [(key, v)] })

/-- Model of `TTLCache.delete`. -/
def TTLCache.delete (c : TTLCache) (key : String) : Bool × TTLCache :=
  match alook key c.cache with
  | some _ => (true, { c with cache := aerase key c.cache,
                              timestamps := aerase key c.timestamps })
  | none => (false, c)

/-- Model of `TTLCache.clear`. -/
def TTLCache.clear (c : TTLCache) : TTLCache :=
  { c with cache := [], timestamps := [] }

/-- Model of `TTLCache.size`: runs the expiry sweep first, then counts. -/
def TTLCache.size (c : TTLCache) (now : Int) : Nat × TTLCache :=
  let c' := c.evict_expired now
  (c'.cache.length, c')

/-- Model of `TTLCache.keys`: runs the expiry sweep first, then lists keys in
LRU-to-MRU order. -/
def TTLCache.keys (c : TTLCache) (now : Int) : List String × TTLCache :=
  let c' := c.evict_expired now
  (c'.cache.map Prod.fst, c')

/-! ## String helpers (models of the Python `str` methods used) -/

/-- The whitespace set of Python's default `str.strip()`:
space, tab, newline, carriage return, vertical tab, form feed. -/
def isPyWS (ch : Char) : Bool :=
  ch == ' ' || ch == '\t' || ch == '\n' || ch == '\r' ||
  ch == Char.ofNat 11 || ch == Char.ofNat 12

/-- Python `str.strip()`. -/
def pyStrip (s : String) : String :=
  String.mk (((s.data.dropWhile isPyWS).reverse.dropWhile isPyWS).reverse)

/-- Python `str.upper()` (ASCII, which is all the validators compare). -/
def pyUpper (s : String) : String := String.mk (s.data.map Char.toUpper)

/-- Python `str.lower()` (ASCII). -/
def pyLower (s : String) : String := String.mk (s.data.map Char.toLower)

/-- Bool-valued list prefix test. -/
def isPrefixB : List Char → List Char → Bool
  | [], _ => true
  | _ :: _, [] => false
  | a :: as, b :: bs => a == b && isPrefixB as bs

/-- Bool-valued contiguous-sublist test. -/
def containsSeq (needle : List Char) : List Char → Bool
  | [] => needle.isEmpty
  | b :: bs => isPrefixB needle (b :: bs) || containsSeq needle bs

/-- Python `needle in hay` on strings. -/
def strContains (hay needle : String) : Bool := containsSeq needle.data hay.data

/-- Python `s.startswith(pre)`. -/
def strStartsWith (s pre : String) : Bool := isPrefixB pre.data s.data

/-! ## Query validators

`MySQLDataSource.validate_query` (`mcp_server/datasources/mysql.py`) and
`RestAPIDataSource.validate_query` (`mcp_server/datasources/rest_api.py`).
`max_query_limit` is the instance field `self.max_query_limit`
(`config.get('max_query_limit', 1000)` in `MCPDataSource.__init__`); the
dict-shaped `query_params` argument is modelled as a structure whose
fields carry the values `query_params.get(...)` would produce, defaults
already applied by the caller. -/

structure SQLParams where
  query : String
  limit : Int
  deriving DecidableEq

/-- The deny-list `dangerous_keywords` of `MySQLDataSource.validate_query`. -/
def dangerous_keywords : List String :=
  ["DROP", "DELETE", "INSERT", "UPDATE", "ALTER", "CREATE",
   "TRUNCATE", "REPLACE", "LOAD_FILE", "INTO OUTFILE",
   "INTO DUMPFILE", "EXEC", "EXECUTE", "CALL", "PROCEDURE"]

/-- Model of `MySQLDataSource.validate_query`: uppercase the stripped statement,
require the `SELECT` verb, reject any deny-listed keyword appearing
anywhere, reject a limit above `max_query_limit`. -/
def mysqlValidateQuery (max_query_limit : Int) (p : SQLParams) : Bool :=
  let q := pyUpper (pyStrip p.query)
  if !(strStartsWith q "SELECT") then false
  else if dangerous_keywords.any (fun kw => strContains q kw) then false
  else if p.limit > max_query_limit then false
  else true

structure RESTParams where
  endpoint : String
  method : String
  limit : Int
  deriving DecidableEq

/-- Model of `RestAPIDataSource.validate_query`: non-empty endpoint, safe HTTP verb
(`GET`/`HEAD`/`OPTIONS` after uppercasing), limit within
`max_query_limit`, and no `..` / `//` in the (slash-normalized) path. -/
def restValidateQuery (max_query_limit : Int) (p : RESTParams) : Bool :=
  let m := pyUpper p.method
  if p.endpoint == "" then false
  else if !(["GET", "HEAD", "OPTIONS"].contains m) then false
  else if p.limit > max_query_limit then false
  else
    let ep := if strStartsWith p.endpoint "/" then p.endpoint
              else "/" ++ p.endpoint
    if strContains ep ".." || strContains ep "//" then false
    else true

/-! ## Data-source configuration metadata
(`MCPDataSource.get_schema_metadata`, `mcp_server/base/datasource.py`) -/

/-- The `config` entry of `get_schema_metadata()`:
`{k: v for k, v in self.config.items() if 'password' not in k.lower()}`. -/
def get_schema_metadata_config (config : List (String × Val)) :
    List (String × Val) :=
  config.filter (fun kv => !(strContains (pyLower kv.1) "password"))

/-! ## Schema store (`mcp_server/base/schema.py`, class `SchemaManager`)

The cache directory is modelled as two maps keyed by data-source name:
`schemas` holds the payload files (`{name}_schema.json`, stored as the
parsed value — `json.dump`/`json.load` round-trips a dict), `metas` holds
the metadata sidecars (`{name}_metadata.json`).  Distinct names always
yield distinct file paths, so keying by name is faithful.  The sidecar's
`schema_size` and `version` fields are written by the source but read by
no claim, so the model records only the fields staleness depends on. -/

structure SchemaMeta where
  data_source : String
  generated_at : Int
  ttl_seconds : Int
  deriving DecidableEq

structure SchemaStore where
  schemas : List (String × Val)
  metas : List (String × SchemaMeta)

/-- The sidecar TTL computed by `save_schema`:
`schema.get("metadata", {}).get("cache_ttl", 3600)`.  `none` models the
paths on which the Python expression raises (a non-dict schema or a
non-dict `metadata` entry has no `.get`; a non-integer `cache_ttl` makes
the later `timedelta` comparison raise), which `save_schema` converts
into a raised `Exception`. -/
def schemaCacheTTL : Val → Option Int
  | Val.dict kvs =>
    match alook "metadata" kvs with
    | none => some 3600
    | some (Val.dict m) =>
      match alook "cache_ttl" m with
      | none => some 3600
      | some (Val.int n) => some n
      | some _ => none
    | some _ => none
  | _ => none

/-- Model of `SchemaManager.save_schema`: write the payload file, then compute and
write the sidecar.  Returns `(succeeded?, resulting store)`: on the
raising paths the payload has already been written but the old sidecar
(if any) is left in place, and the caller sees the exception
(`succeeded? = false`). -/
def SchemaStore.save_schema (st : SchemaStore) (now : Int) (name : String)
    (schema : Val) : Bool × SchemaStore :=
  let st1 : SchemaStore :=
    { st with schemas := aerase name st.schemas ++ [(name, schema)] }
  match schemaCacheTTL schema with
  | none => (false, st1)
  | some ttl =>
    (true,
     { st1 with
       metas := aerase name st.metas ++
         [(name, { data_source := name, generated_at := now,
                   ttl_seconds := ttl })] })

/-- Model of `SchemaManager.get_schema`: absent when either file is missing or when
`now - generated_at > ttl_seconds` (stale); otherwise the payload. -/
def SchemaStore.get_schema (st : SchemaStore) (now : Int) (name : String) :
    Option Val :=
  match alook name st.schemas, alook name st.metas with
  | some schema, some meta =>
    if now - meta.generated_at > meta.ttl_seconds then none
    else some schema
  | _, _ => none

/-! ## Orchestrator fan-out refresh (`mcp_server/base/server.py`,
tool `refresh_schema`, no-argument branch)

Each registered source's `get_schema()` outcome is modelled as an
`Except` (exception message or schema value); the loop body catches every
exception and records `{"status": "success"}` or
`{"status": "error", "error": str(e)}` per source, threading the schema
store through the saves.  Registered names come from a dict, hence are
unique. -/

inductive RefreshEntry where
  | success
  | error (msg : String)
  deriving DecidableEq

/-- One iteration of the `refresh_schema` fan-out loop body: run the
source's `get_schema` outcome through `save_schema`, appending
`{"status": "success"}` or `{"status": "error", "error": str(e)}` to the
results — the `except` clause turns both a `get_schema` failure and a
`save_schema` failure into an error entry. -/
def refreshStep (now : Int)
    (acc : SchemaStore × List (String × RefreshEntry))
    (src : String × Except String Val) :
    SchemaStore × List (String × RefreshEntry) :=
  match src.2 with
  | Except.error e => (acc.1, acc.2 ++ [(src.1, RefreshEntry.error e)])
  | Except.ok schema =>
    let r := acc.1.save_schema now src.1 schema
    if r.1 then (r.2, acc.2 ++ [(src.1, RefreshEntry.success)])
    else
      (r.2, acc.2 ++
        [(src.1, RefreshEntry.error
            ("Failed to save schema for " ++ src.1))])

/-- The `else` branch of `refresh_schema` (`data_source` omitted):
iterate every registered source, `get_schema` then `save_schema`,
recording a per-source status and never letting a failure escape. -/
def refreshAll (st : SchemaStore) (now : Int)
    (sources : List (String × Except String Val)) :
    SchemaStore × List (String × RefreshEntry) :=
  sources.foldl (refreshStep now) (st, [])

/-! ## Validate-before-query call paths

`query_data_source` (`mcp_server/base/server.py`, the per-source query
tool) and `MCPDataSource.health_check` (`mcp_server/base/datasource.py`).
Each run is abstracted as the sequence of validator/executor events it
performs on the data source, plus the tool's outcome; the cache lookup of
the tool is abstracted as a boolean hit/miss, and the backend `query`
call itself (including its `try/except`) happens iff an `execQuery` event
is emitted. -/

inductive QueryEvent where
  | validate (params : SQLParams) (result : Bool)
  | execQuery (params : SQLParams)
  deriving DecidableEq

inductive ToolOutcome where
  | rejection
  | cached
  | executed
  deriving DecidableEq

/-- The per-source `query_data_source` tool: validate; on failure return
the structured rejection `{"error": "Invalid query parameters"}` without
touching the cache or the source; on a cache hit return the cached
payload; otherwise execute the query. -/
def queryToolRun (validator : SQLParams → Bool) (cacheHit : Bool)
    (query : String) (limit : Int) : ToolOutcome × List QueryEvent :=
  let p : SQLParams := { query := query, limit := limit }
  if validator p then
    if cacheHit then (ToolOutcome.cached, [QueryEvent.validate p true])
    else
      (ToolOutcome.executed,
       [QueryEvent.validate p true, QueryEvent.execQuery p])
  else (ToolOutcome.rejection, [QueryEvent.validate p false])

/-- The base-class `MCPDataSource.health_check` probe: after the optional
reconnect it calls `self.query({"query": "SELECT 1", "limit": 1})`
directly — no `validate` event precedes the `execQuery` event. -/
def healthCheckEvents : List QueryEvent :=
  [QueryEvent.execQuery { query := "SELECT 1", limit := 1 }]

/-- Checks a trace: every executed query was previously validated with a
passing result. -/
def validatedBefore (seen : List SQLParams) : List QueryEvent → Bool
  | [] => true
  | QueryEvent.validate p true :: rest => validatedBefore (p :: seen) rest
  | QueryEvent.validate _ false :: rest => validatedBefore seen rest
  | QueryEvent.execQuery p :: rest => seen.contains p && validatedBefore seen rest

/-- One entry in a sequence of `set` calls: the wall-clock instant of the
call and the arguments `set(key, value, ttl)` receives. -/
structure SetCall where
  now : Int
  key : String
  value : Val
  ttl : Option Int

/-- Replay a sequence of `set` calls against a cache engine. -/
def applySets (c : TTLCache) (ops : List SetCall) : TTLCache :=
  ops.foldl (fun c op => c.set op.now op.key op.value op.ttl) c

/-- The `max_size=2` LRU scenario of C5: `set(a,1)`, `set(b,2)`, `get(a)`,
`set(c,3)`, all within the default TTL window (time 0 throughout). -/
def lruScenario : TTLCache :=
  (((((TTLCache.mk0 2 300).set 0 "a" (Val.int 1) none).set 0 "b"
      (Val.int 2) none).get 0 "a").2).set 0 "c" (Val.int 3) none

/-- The expected per-source entry of a fan-out refresh: a pure function of
the source's own name and `get_schema` outcome. -/
def refreshEntryOf (src : String × Except String Val) :
    String × RefreshEntry :=
  (src.1,
   match src.2 with
   | Except.error e => RefreshEntry.error e
   | Except.ok schema =>
     if (schemaCacheTTL schema).isSome then RefreshEntry.success
     else RefreshEntry.error ("Failed to save schema for " ++ src.1))


/-! ## Helper lemmas on association lists -/

theorem alook_aerase_self (k : String) (l : List (String × α)) :
    alook k (aerase k l) = none := by
  induction l with
  | nil => rfl
  | cons kv rest ih =>
    by_cases h : kv.1 = k
    · simpa [aerase, List.filter_cons, h] using ih
    · simpa [aerase, List.filter_cons, h, alook] using ih

theorem alook_none_filter (k : String) (p : String × α → Bool)
    (l : List (String × α)) (h : alook k l = none) :
    alook k (l.filter p) = none := by
  induction l with
  | nil => rfl
  | cons kv rest ih =>
    by_cases hk : kv.1 = k
    · simp [alook, hk] at h
    · simp only [alook, hk, if_false] at h
      cases hp : p kv <;> simp [List.filter_cons, hp, alook, hk, ih h]

theorem alook_append_none (k : String) (l m : List (String × α))
    (h : alook k l = none) : alook k (l ++ m) = alook k m := by
  induction l with
  | nil => rfl
  | cons kv rest ih =>
    by_cases hk : kv.1 = k
    · simp [alook, hk] at h
    · simp only [alook, hk, if_false] at h
      simp [List.cons_append, alook, hk, ih h]

theorem alook_none_dropLRU (k : String) (M : Nat) (l : List (String × Val))
    (ts : List (String × Int)) (h : alook k l = none) :
    alook k (dropLRU M l ts).1 = none := by
  induction l generalizing ts with
  | nil => simpa [dropLRU] using h
  | cons kv rest ih =>
    obtain ⟨k', v⟩ := kv
    by_cases hk : k' = k
    · simp [alook, hk] at h
    · simp only [alook, hk, if_false] at h
      by_cases hcap : M ≤ rest.length + 1
      · simpa [dropLRU, hcap] using ih _ h
      · simpa [dropLRU, hcap, alook, hk] using h


/-! ## Helper lemmas on association lists -/

theorem entryTTL_wrapper (d t : Int) (v : Val) :
    entryTTL d (Val.dict [("value", v), ("ttl", Val.int t)]) = t := rfl

theorem set_max_size (c : TTLCache) (now : Int) (key : String) (value : Val)
    (ttl : Option Int) : (c.set now key value ttl).max_size = c.max_size := rfl

theorem set_default_ttl (c : TTLCache) (now : Int) (key : String) (value : Val)
    (ttl : Option Int) : (c.set now key value ttl).default_ttl = c.default_ttl := rfl

theorem set_alook_cache (c : TTLCache) (now : Int) (key : String) (value : Val)
    (ttl : Option Int) :
    alook key (c.set now key value ttl).cache =
      some (match ttl with
            | some t => Val.dict [("value", value), ("ttl", Val.int t)]
            | none => value) := by
  simp only [TTLCache.set]
  rw [alook_append_none]
  · simp [alook]
  · exact alook_none_dropLRU _ _ _ _ (alook_none_filter _ _ _ (alook_aerase_self _ _))

theorem set_alook_ts (c : TTLCache) (now : Int) (key : String) (value : Val)
    (ttl : Option Int) :
    alook key (c.set now key value ttl).timestamps = some now := by
  simp only [TTLCache.set]
  rw [alook_append_none _ _ _ (alook_aerase_self _ _)]
  simp [alook]

theorem set_is_expired (c : TTLCache) (now : Int) (key : String) (value : Val)
    (ttl : Option Int) (now' : Int) :
    (c.set now key value ttl).is_expired now' key =
      decide (now' - now > entryTTL c.default_ttl
        (match ttl with
         | some t => Val.dict [("value", value), ("ttl", Val.int t)]
         | none => value)) := by
  simp [TTLCache.is_expired, set_alook_ts, set_alook_cache, set_default_ttl]

theorem get_after_set (c : TTLCache) (now : Int) (key : String) (value : Val)
    (ttl : Option Int) (now' : Int) :
    ((c.set now key value ttl).get now' key).1 =
      (if now' - now > entryTTL c.default_ttl
          (match ttl with
           | some t => Val.dict [("value", value), ("ttl", Val.int t)]
           | none => value)
       then none
       else some (match ttl with
                  | some t => Val.dict [("value", value), ("ttl", Val.int t)]
                  | none => value)) := by
  by_cases h : now' - now > entryTTL c.default_ttl
      (match ttl with
       | some t => Val.dict [("value", value), ("ttl", Val.int t)]
       | none => value) <;>
    simp [TTLCache.get, set_alook_cache, set_is_expired, h]

theorem dropLRU_length_lt (M : Nat) (hM : 1 ≤ M) (l : List (String × Val))
    (ts : List (String × Int)) : ((dropLRU M l ts).1).length < M := by
  induction l generalizing ts with
  | nil => simpa [dropLRU] using hM
  | cons kv rest ih =>
    obtain ⟨k, v⟩ := kv
    by_cases hcap : M ≤ rest.length + 1
    · simpa [dropLRU, hcap] using ih _
    · simp [dropLRU, hcap]
      omega

theorem evict_expired_max_size (c : TTLCache) (now : Int) :
    (c.evict_expired now).max_size = c.max_size := rfl

theorem set_cache_length (c : TTLCache) (now : Int) (key : String) (value : Val)
    (ttl : Option Int) (hM : 1 ≤ c.max_size) :
    (c.set now key value ttl).cache.length ≤ c.max_size := by
  simp only [TTLCache.set, List.length_append, List.length_cons, List.length_nil,
    evict_expired_max_size]
  have h := dropLRU_length_lt c.max_size hM
    ((TTLCache.evict_expired { c with cache := aerase key c.cache } now).cache)
    ((TTLCache.evict_expired { c with cache := aerase key c.cache } now).timestamps)
  omega

theorem evict_expired_length_le (c : TTLCache) (now : Int) :
    (c.evict_expired now).cache.length ≤ c.cache.length :=
  List.length_filter_le _ _

theorem applySets_invariant (M : Nat) (hM : 1 ≤ M) (ops : List SetCall)
    (c : TTLCache) (hms : c.max_size = M) (hlen : c.cache.length ≤ M) :
    (applySets c ops).max_size = M ∧ (applySets c ops).cache.length ≤ M := by
  induction ops generalizing c with
  | nil => exact ⟨hms, hlen⟩
  | cons op rest ih =>
    refine ih (c.set op.now op.key op.value op.ttl) ?_ ?_
    · rw [set_max_size, hms]
    · rw [← hms]
      exact set_cache_length _ _ _ _ _ (hms ▸ hM)



theorem alook_filter_dropped (k : String) (bad : List String) (hk : k ∈ bad)
    (l : List (String × α)) :
    alook k (l.filter (fun kv => !(bad.contains kv.1))) = none := by
  induction l with
  | nil => rfl
  | cons kv rest ih =>
    by_cases h : kv.1 = k
    · simp [List.filter_cons, h, hk]
      simpa using ih
    · by_cases hm : kv.1 ∈ bad
      · simp [List.filter_cons, hm]
        simpa using ih
      · simp [List.filter_cons, hm, alook, h]
        simpa using ih

theorem not_mem_of_alook_none (k : String) (l : List (String × α))
    (h : alook k l = none) : k ∉ l.map Prod.fst := by
  induction l with
  | nil => simp
  | cons kv rest ih =>
    by_cases hk : kv.1 = k
    · simp [alook, hk] at h
    · simp only [alook, hk, if_false] at h
      rw [List.map_cons]
      intro hmem
      rcases List.mem_cons.mp hmem with he | hm
      · exact hk he.symm
      · exact ih h hm

theorem set_key_expired_mem (c : TTLCache) (now : Int) (key : String) (value : Val)
    (ttl : Option Int) (now' : Int)
    (hexp : now' - now > entryTTL c.default_ttl
      (match ttl with
       | some t => Val.dict [("value", value), ("ttl", Val.int t)]
       | none => value)) :
    key ∈ (c.set now key value ttl).expiredKeys now' := by
  unfold TTLCache.expiredKeys
  refine List.mem_map.mpr ⟨(key, now), List.mem_filter.mpr ⟨?_, ?_⟩, rfl⟩
  · show (key, now) ∈ (c.set now key value ttl).timestamps
    simp [TTLCache.set]
  · simp only [set_alook_cache, set_default_ttl]
    simpa using hexp

theorem set_expired_swept (c : TTLCache) (now : Int) (key : String) (value : Val)
    (ttl : Option Int) (now' : Int)
    (hexp : now' - now > entryTTL c.default_ttl
      (match ttl with
       | some t => Val.dict [("value", value), ("ttl", Val.int t)]
       | none => value)) :
    alook key ((c.set now key value ttl).evict_expired now').cache = none ∧
    key ∉ ((c.set now key value ttl).keys now').1 := by
  have h1 : alook key ((c.set now key value ttl).evict_expired now').cache = none := by
    show alook key (((c.set now key value ttl)).cache.filter _) = none
    exact alook_filter_dropped key _ (set_key_expired_mem c now key value ttl now' hexp) _
  refine ⟨h1, ?_⟩
  exact not_mem_of_alook_none _ _ h1

/-! ## Claim theorems -/

/-- C5: with `max_size=2`, after `set(a,1); set(b,2); get(a); set(c,3)` the
intermediate `get(a)` hit returned the stored value, `get(b)` is absent
(`b` was evicted as least recently used), and `get(a)`, `get(c)` both
return their stored values. -/
theorem C5_lru_order :
    (((((TTLCache.mk0 2 300).set 0 "a" (Val.int 1) none).set 0 "b"
        (Val.int 2) none).get 0 "a").1 = some (Val.int 1)) ∧
    ((lruScenario.get 0 "b").1 = none) ∧
    ((lruScenario.get 0 "a").1 = some (Val.int 1)) ∧
    ((lruScenario.get 0 "c").1 = some (Val.int 3)) :=
  ⟨rfl, rfl, rfl, rfl⟩

/-- C1 (counterexample): the base-class `health_check` executes the probe
query `{"query": "SELECT 1", "limit": 1}` with no preceding successful
`validate_query` event, so the claim that every call path validates
before `query` — health_check included — is false on the code. -/
theorem C1_health_check_unvalidated_query :
    healthCheckEvents.contains
      (QueryEvent.execQuery { query := "SELECT 1", limit := 1 }) = true ∧
    validatedBefore [] healthCheckEvents = false :=
  ⟨rfl, rfl⟩

/-- C1 (amended): on the per-source query tool path, `validate_query` is
evaluated before `query` and no unvalidated request is executed: every
`execQuery` event is preceded by a passing `validate` event, the backend
query runs exactly when validation passed and the cache missed, and a
failed validation yields the structured rejection with no further
events. -/
theorem C1_query_tool_validates_before_query (validator : SQLParams → Bool)
    (cacheHit : Bool) (query : String) (limit : Int) :
    validatedBefore [] (queryToolRun validator cacheHit query limit).2 = true ∧
    ((queryToolRun validator cacheHit query limit).2.contains
        (QueryEvent.execQuery { query := query, limit := limit })
      = (validator { query := query, limit := limit } && !cacheHit)) ∧
    (validator { query := query, limit := limit } = false →
      (queryToolRun validator cacheHit query limit).1 = ToolOutcome.rejection ∧
      (queryToolRun validator cacheHit query limit).2
        = [QueryEvent.validate { query := query, limit := limit } false]) := by
  cases hv : validator { query := query, limit := limit } <;> cases cacheHit <;>
    simp [queryToolRun, validatedBefore, hv]

theorem C1_query_tool_validates_before_query_witness :
    (queryToolRun (fun _ => false) false "DROP TABLE t" 10).1
      = ToolOutcome.rejection ∧
    (queryToolRun (fun _ => false) false "DROP TABLE t" 10).2
      = [QueryEvent.validate { query := "DROP TABLE t", limit := 10 } false] :=
  (C1_query_tool_validates_before_query (fun _ => false) false
    "DROP TABLE t" 10).2.2 rfl

/-- C2 (counterexample): the configuration view built by
`get_schema_metadata` filters only keys containing `'password'`, so a
REST-style configuration's `api_key` and `auth_token` secrets survive
into the exposed view unredacted. -/
theorem C2_api_key_not_redacted :
    alook "api_key" (get_schema_metadata_config
      [("api_key", Val.str "SECRET"), ("auth_token", Val.str "TOKEN"),
       ("password", Val.str "PW")]) = some (Val.str "SECRET") ∧
    alook "auth_token" (get_schema_metadata_config
      [("api_key", Val.str "SECRET"), ("auth_token", Val.str "TOKEN"),
       ("password", Val.str "PW")]) = some (Val.str "TOKEN") :=
  ⟨rfl, rfl⟩

/-- C2 (amended): the configuration view exposed for `list_data_sources`
redacts exactly the entries whose key contains `"password"`
case-insensitively; every other entry — auth tokens and API keys
included — is exposed with its value unchanged. -/
theorem C2_only_password_keys_redacted (config : List (String × Val))
    (k : String) (v : Val) :
    (k, v) ∈ get_schema_metadata_config config ↔
      ((k, v) ∈ config ∧ strContains (pyLower k) "password" = false) := by
  simp [get_schema_metadata_config, List.mem_filter]

theorem C2_only_password_keys_redacted_witness :
    ("api_key", Val.str "S") ∈
      get_schema_metadata_config [("api_key", Val.str "S")] :=
  (C2_only_password_keys_redacted [("api_key", Val.str "S")] "api_key"
    (Val.str "S")).mpr ⟨by simp, rfl⟩

/-- C9: a `get` on an expired key reports a miss and returns the state
unchanged — the expired entry is not purged by the read; it disappears
only through the write-side sweep (`set`/`size`/`keys`) or LRU
pressure. -/
theorem C9_expired_get_is_pure_miss (c : TTLCache) (now : Int) (key : String)
    (hexp : c.is_expired now key = true) :
    c.get now key = (none, c) := by
  unfold TTLCache.get
  cases h : alook key c.cache
  · rfl
  · simp [hexp]

theorem C9_expired_get_is_pure_miss_witness :
    (((TTLCache.mk0 10 300).set 0 "k" (Val.int 1) (some 5)).is_expired
      100 "k") = true ∧
    ((TTLCache.mk0 10 300).set 0 "k" (Val.int 1) (some 5)).get 100 "k"
      = (none, (TTLCache.mk0 10 300).set 0 "k" (Val.int 1) (some 5)) :=
  ⟨rfl, C9_expired_get_is_pure_miss _ 100 "k" rfl⟩

/-- C3: starting from a freshly configured engine with `max_size = M ≥ 1`,
after any sequence of `set` calls (arbitrary keys, values, TTLs and call
times — distinct keys included as a special case) the number of stored
entries is at most `M`, and so is the count `size()` reports after its
expiry sweep.  Quantifying over all sequences covers every prefix, i.e.
the bound holds at the moment each `set` call returns.  (For `M = 0` the
source's eviction loop in `set` never terminates, so no `set` call
returns at all.) -/
theorem C3_capacity_invariant (M : Nat) (d : Int) (ops : List SetCall)
    (now' : Int) (hM : 1 ≤ M) :
    (applySets (TTLCache.mk0 M d) ops).cache.length ≤ M ∧
    ((applySets (TTLCache.mk0 M d) ops).size now').1 ≤ M := by
  have h := applySets_invariant M hM ops (TTLCache.mk0 M d) rfl
    (by simp [TTLCache.mk0])
  refine ⟨h.2, le_trans ?_ h.2⟩
  exact evict_expired_length_le _ _

theorem C3_capacity_invariant_witness :
    (applySets (TTLCache.mk0 1 300)
      [{ now := 0, key := "a", value := Val.int 1, ttl := none },
       { now := 1, key := "b", value := Val.int 2, ttl := none }]).cache.length ≤ 1 ∧
    ((applySets (TTLCache.mk0 1 300)
      [{ now := 0, key := "a", value := Val.int 1, ttl := none },
       { now := 1, key := "b", value := Val.int 2, ttl := none }]).size 1).1 ≤ 1 :=
  C3_capacity_invariant 1 300 _ 1 (by decide)

/-- C4 (counterexample): after `set("k", 7, ttl=5)` an immediate
`get("k")` does not return the stored value `7`: `set` wrapped the value
as `{"value": 7, "ttl": 5}` and `get` returns that wrapper verbatim. -/
theorem C4_get_returns_wrapper_not_value :
    (((TTLCache.mk0 10 300).set 0 "k" (Val.int 7) (some 5)).get 0 "k").1
      = some (Val.dict [("value", Val.int 7), ("ttl", Val.int 5)]) ∧
    (((TTLCache.mk0 10 300).set 0 "k" (Val.int 7) (some 5)).get 0 "k").1
      ≠ some (Val.int 7) := by
  refine ⟨rfl, fun h => ?_⟩
  injection h with h2
  injection h2

/-- C4 (amended): after `set(k, v, ttl=t)`, a `get(k)` at most `t` time
units later returns the stored cache entry — the wrapper
`{"value": v, "ttl": t}`, not `v` itself — and a `get(k)` more than `t`
units later returns absent, with no eviction or other mutation needed in
between. -/
theorem C4_set_get_ttl_roundtrip (c : TTLCache) (now : Int) (key : String)
    (value : Val) (t : Int) (now' : Int) :
    (now' - now ≤ t →
      ((c.set now key value (some t)).get now' key).1
        = some (Val.dict [("value", value), ("ttl", Val.int t)])) ∧
    (now' - now > t →
      ((c.set now key value (some t)).get now' key).1 = none) := by
  have h := get_after_set c now key value (some t) now'
  simp only [entryTTL_wrapper] at h
  constructor
  · intro hle
    rw [h, if_neg (by omega)]
  · intro hgt
    rw [h, if_pos (by omega)]

theorem C4_set_get_ttl_roundtrip_witness :
    (((TTLCache.mk0 10 300).set 0 "k" (Val.int 7) (some 5)).get 3 "k").1
      = some (Val.dict [("value", Val.int 7), ("ttl", Val.int 5)]) ∧
    (((TTLCache.mk0 10 300).set 0 "k" (Val.int 7) (some 5)).get 6 "k").1
      = none :=
  ⟨(C4_set_get_ttl_roundtrip (TTLCache.mk0 10 300) 0 "k" (Val.int 7) 5 3).1
      (by decide),
   (C4_set_get_ttl_roundtrip (TTLCache.mk0 10 300) 0 "k" (Val.int 7) 5 6).2
      (by decide)⟩

/-- C10: when `set` is called without an explicit TTL and the stored value
is itself a dict with a `'ttl'` entry, that entry — not the engine's
`default_ttl` — governs expiry: for an arbitrary engine (any
`default_ttl`), `get` hits exactly until `v["ttl"]` elapses, and once
expired the write-side sweep (shared by `size` and `keys`) removes the
entry. -/
theorem C10_value_ttl_overrides_default (c : TTLCache) (now : Int)
    (key : String) (kvs : List (String × Val)) (t : Int) (now' : Int)
    (httl : alook "ttl" kvs = some (Val.int t)) :
    (((c.set now key (Val.dict kvs) none).get now' key).1
      = if now' - now > t then none else some (Val.dict kvs)) ∧
    (now' - now > t →
      alook key ((c.set now key (Val.dict kvs) none).evict_expired
        now').cache = none ∧
      key ∉ ((c.set now key (Val.dict kvs) none).keys now').1) := by
  have hE : entryTTL c.default_ttl (Val.dict kvs) = t := by
    simp [entryTTL, httl]
  constructor
  · have h := get_after_set c now key (Val.dict kvs) none now'
    simpa [hE] using h
  · intro hgt
    exact set_expired_swept c now key (Val.dict kvs) none now' (by simpa [hE])

theorem C10_value_ttl_overrides_default_witness :
    (((TTLCache.mk0 10 300).set 0 "k" (Val.dict [("ttl", Val.int 0)])
        none).get 1 "k").1 = none ∧
    "k" ∉ (((TTLCache.mk0 10 300).set 0 "k" (Val.dict [("ttl", Val.int 0)])
        none).keys 1).1 :=
  ⟨((C10_value_ttl_overrides_default (TTLCache.mk0 10 300) 0 "k"
      [("ttl", Val.int 0)] 0 1 rfl).1).trans (if_pos (by decide)),
   ((C10_value_ttl_overrides_default (TTLCache.mk0 10 300) 0 "k"
      [("ttl", Val.int 0)] 0 1 rfl).2 (by decide)).2⟩

/-- C7 (counterexample): `save_schema` succeeds for a snapshot whose
`metadata.cache_ttl` is `-1`, but the immediately following
`get_schema` — at the very instant of the save — already returns absent
(`0 > -1` makes it stale), so "save immediately followed by get returns
the snapshot" fails for that snapshot. -/
theorem C7_negative_ttl_immediately_stale :
    ((SchemaStore.mk [] []).save_schema 0 "src"
      (Val.dict [("metadata", Val.dict [("cache_ttl", Val.int (-1))])])).1
      = true ∧
    (((SchemaStore.mk [] []).save_schema 0 "src"
      (Val.dict [("metadata", Val.dict [("cache_ttl", Val.int (-1))])])).2
      ).get_schema 0 "src" = none :=
  ⟨rfl, rfl⟩

/-- C7 (amended): a completed `save_schema(name, S)` records a sidecar
whose `generated_at` is the save instant; from then on `get_schema(name)`
returns `S` exactly when `now - generated_at ≤ ttl_seconds` and absent
exactly when `now - generated_at > ttl_seconds` (staleness is precisely
that sidecar condition); in particular an immediate `get_schema` returns
`S` provided the recorded `ttl_seconds` is nonnegative (a snapshot
carrying a negative `metadata.cache_ttl` is immediately stale). -/
theorem C7_schema_freshness_roundtrip (st : SchemaStore) (now : Int)
    (name : String) (schema : Val) (st' : SchemaStore)
    (hsave : st.save_schema now name schema = (true, st')) :
    ∃ meta, alook name st'.metas = some meta ∧ meta.generated_at = now ∧
      (∀ now', st'.get_schema now' name =
        if now' - now > meta.ttl_seconds then none else some schema) ∧
      (0 ≤ meta.ttl_seconds → st'.get_schema now name = some schema) := by
  cases hct : schemaCacheTTL schema with
  | none =>
    simp [SchemaStore.save_schema, hct] at hsave
  | some ttl =>
    simp only [SchemaStore.save_schema, hct] at hsave
    have hst : st' = _ := (congrArg Prod.snd hsave).symm
    subst hst
    have hs : alook name (aerase name st.schemas ++ [(name, schema)])
        = some schema := by
      rw [alook_append_none _ _ _ (alook_aerase_self _ _)]
      simp [alook]
    have hm : alook name (aerase name st.metas ++
        [(name, { data_source := name, generated_at := now,
                  ttl_seconds := ttl : SchemaMeta })])
        = some { data_source := name, generated_at := now,
                 ttl_seconds := ttl : SchemaMeta } := by
      rw [alook_append_none _ _ _ (alook_aerase_self _ _)]
      simp [alook]
    have heq : ∀ now',
        SchemaStore.get_schema
          { schemas := aerase name st.schemas ++ [(name, schema)],
            metas := aerase name st.metas ++
              [(name, { data_source := name, generated_at := now,
                        ttl_seconds := ttl })] } now' name
          = if now' - now > ttl then none else some schema := by
      intro now'
      simp [SchemaStore.get_schema, hs, hm]
    refine ⟨{ data_source := name, generated_at := now, ttl_seconds := ttl },
      hm, rfl, heq, fun hnn => ?_⟩
    have hnn' : (0 : Int) ≤ ttl := hnn
    rw [heq now, if_neg (by omega)]

theorem C7_schema_freshness_roundtrip_witness :
    ∃ meta,
      alook "src"
        (((SchemaStore.mk [] []).save_schema 5 "src" (Val.dict [])).2).metas
        = some meta ∧
      meta.generated_at = 5 ∧
      (∀ now',
        (((SchemaStore.mk [] []).save_schema 5 "src" (Val.dict [])).2
          ).get_schema now' "src"
          = if now' - 5 > meta.ttl_seconds then none else some (Val.dict [])) ∧
      (0 ≤ meta.ttl_seconds →
        (((SchemaStore.mk [] []).save_schema 5 "src" (Val.dict [])).2
          ).get_schema 5 "src" = some (Val.dict [])) :=
  C7_schema_freshness_roundtrip (SchemaStore.mk [] []) 5 "src" (Val.dict [])
    (((SchemaStore.mk [] []).save_schema 5 "src" (Val.dict [])).2) rfl

/-- Lemma: `save_schema` reports success exactly when the sidecar-TTL expression
evaluates cleanly; the outcome depends only on the snapshot, never on the
prior store state. -/
theorem save_schema_fst (st : SchemaStore) (now : Int) (name : String)
    (schema : Val) :
    (st.save_schema now name schema).1 = (schemaCacheTTL schema).isSome := by
  cases h : schemaCacheTTL schema <;> simp [SchemaStore.save_schema, h]

theorem refreshAll_go (now : Int) (sources : List (String × Except String Val))
    (st : SchemaStore) (acc : List (String × RefreshEntry)) :
    (sources.foldl (refreshStep now) (st, acc)).2
      = acc ++ sources.map refreshEntryOf := by
  induction sources generalizing st acc with
  | nil => simp
  | cons src rest ih =>
    obtain ⟨n, r⟩ := src
    cases r with
    | error e =>
      rw [List.foldl_cons]
      have hstep : refreshStep now (st, acc) (n, Except.error e)
          = (st, acc ++ [(n, RefreshEntry.error e)]) := rfl
      rw [hstep, ih]
      simp [refreshEntryOf]
    | ok schema =>
      rw [List.foldl_cons]
      cases h : (st.save_schema now n schema).1 with
      | false =>
        have hstep : refreshStep now (st, acc) (n, Except.ok schema)
            = ((st.save_schema now n schema).2,
               acc ++ [(n, RefreshEntry.error
                  ("Failed to save schema for " ++ n))]) := by
          simp [refreshStep, h]
        rw [hstep, ih]
        have hsome : (schemaCacheTTL schema).isSome = false := by
          rw [← save_schema_fst st now n schema, h]
        simp [refreshEntryOf, hsome]
      | true =>
        have hstep : refreshStep now (st, acc) (n, Except.ok schema)
            = ((st.save_schema now n schema).2,
               acc ++ [(n, RefreshEntry.success)]) := by
          simp [refreshStep, h]
        rw [hstep, ih]
        have hsome : (schemaCacheTTL schema).isSome = true := by
          rw [← save_schema_fst st now n schema, h]
        simp [refreshEntryOf, hsome]

/-- C8: the no-argument `refresh_schema` produces exactly one status entry
per registered source, in registration order: an error entry carrying the
failure detail for each source whose `get_schema` raised (or whose
subsequent save failed), and a success entry for each source whose
refresh completed.  The per-source outcome is a pure function of that
source alone — independent of the store state and of every other
source — so one source's failure never disturbs the others; the fold is
total, i.e. the fan-out itself never raises. -/
theorem C8_refresh_partial_failure (st : SchemaStore) (now : Int)
    (sources : List (String × Except String Val)) :
    (refreshAll st now sources).2 = sources.map refreshEntryOf := by
  simpa [refreshAll] using refreshAll_go now sources st []

theorem containsSeq_append_left (nd l m : List Char)
    (h : containsSeq nd m = true) : containsSeq nd (l ++ m) = true := by
  induction l with
  | nil => simpa using h
  | cons c cs ih => simp [containsSeq, ih]

theorem strContains_prepend_slash (e nd : String)
    (h : strContains e nd = true) : strContains ("/" ++ e) nd = true := by
  have hd : ("/" ++ e).data = "/".data ++ e.data := rfl
  simp only [strContains, hd]
  exact containsSeq_append_left _ _ _ h

/-- C6: the SQL validator accepts a plain in-limit `SELECT`
(`{query: "SELECT * FROM t", limit: 10}` with `max_query_limit = 1000`);
rejects every statement not beginning (after stripping, case-insensitively)
with the safe verb `SELECT`; rejects any statement containing a
deny-listed dangerous keyword anywhere, case-insensitively (so
`"select 1; DROP TABLE t"` is rejected); and rejects any request whose
limit exceeds `max_query_limit` (so limit 5000 against 1000 is rejected).
The REST validator additionally rejects any method other than
`GET`/`HEAD`/`OPTIONS` and any endpoint containing `".."` or `"//"`. -/
theorem C6_validation_allow_deny :
    mysqlValidateQuery 1000 { query := "SELECT * FROM t", limit := 10 } = true ∧
    mysqlValidateQuery 1000
      { query := "select 1; DROP TABLE t", limit := 10 } = false ∧
    mysqlValidateQuery 1000 { query := "SELECT 1", limit := 5000 } = false ∧
    (∀ (M : Int) (q : String) (l : Int),
      strStartsWith (pyUpper (pyStrip q)) "SELECT" = false →
      mysqlValidateQuery M { query := q, limit := l } = false) ∧
    (∀ (M : Int) (q : String) (l : Int) (kw : String),
      kw ∈ dangerous_keywords →
      strContains (pyUpper (pyStrip q)) kw = true →
      mysqlValidateQuery M { query := q, limit := l } = false) ∧
    (∀ (M : Int) (q : String) (l : Int), l > M →
      mysqlValidateQuery M { query := q, limit := l } = false) ∧
    (∀ (M : Int) (p : RESTParams),
      (["GET", "HEAD", "OPTIONS"].contains (pyUpper p.method)) = false →
      restValidateQuery M p = false) ∧
    (∀ (M : Int) (p : RESTParams),
      (strContains p.endpoint ".." = true ∨
       strContains p.endpoint "//" = true) →
      restValidateQuery M p = false) := by
  refine ⟨by decide, by decide, by decide, ?_, ?_, ?_, ?_, ?_⟩
  · intro M q l h
    simp [mysqlValidateQuery, h]
  · intro M q l kw hkw hctn
    have hany : dangerous_keywords.any
        (fun kw => strContains (pyUpper (pyStrip q)) kw) = true :=
      List.any_eq_true.mpr ⟨kw, hkw, hctn⟩
    by_cases hs : strStartsWith (pyUpper (pyStrip q)) "SELECT" = true <;>
      simp [mysqlValidateQuery, hs, hany]
  · intro M q l h
    by_cases hs : strStartsWith (pyUpper (pyStrip q)) "SELECT" = true
    · by_cases ha : dangerous_keywords.any
          (fun kw => strContains (pyUpper (pyStrip q)) kw) = true <;>
        simp [mysqlValidateQuery, hs, ha, h]
    · simp [mysqlValidateQuery, hs]
  · intro M p h
    simp only [restValidateQuery]
    rw [h]
    simp
  · intro M p h
    by_cases hsw : strStartsWith p.endpoint "/" = true
    · rcases h with h | h <;> simp [restValidateQuery, hsw, h]
    · rcases h with h | h <;>
        simp [restValidateQuery, hsw, strContains_prepend_slash _ _ h]

theorem C6_validation_allow_deny_witness :
    mysqlValidateQuery 1000 { query := "DELETE FROM t", limit := 10 } = false ∧
    mysqlValidateQuery 500 { query := "SELECT 1", limit := 501 } = false ∧
    restValidateQuery 1000
      { endpoint := "/x", method := "POST", limit := 10 } = false ∧
    restValidateQuery 1000
      { endpoint := "/a/../b", method := "GET", limit := 10 } = false :=
  ⟨C6_validation_allow_deny.2.2.2.1 1000 "DELETE FROM t" 10 (by decide),
   C6_validation_allow_deny.2.2.2.2.2.1 500 "SELECT 1" 501 (by decide),
   C6_validation_allow_deny.2.2.2.2.2.2.1 1000
     { endpoint := "/x", method := "POST", limit := 10 } (by decide),
   C6_validation_allow_deny.2.2.2.2.2.2.2 1000
     { endpoint := "/a/../b", method := "GET", limit := 10 }
     (Or.inl (by decide))⟩
